import Mathlib

/-!
Verification of the `triage` Python client library (`triage/client.py`).

The embedding models:
  - JSON values plus `json.loads` / `json.dumps` (`Json.parse?`, `Json.dumps`);
    floats are elided (no claim involves them) and `\u` escapes cover the BMP.
  - byte strings as Lean `String`s, one `Char` per byte.
  - the network as a function `net : Request → Nat × String` giving the HTTP
    status and body the server would answer with; `urlopen` raises `HTTPError`
    on a non-2xx status, as `urllib.request.urlopen` does.
  - Python exceptions as the `PyExc` error type of `Except` results.
Generators (`kernel_report`, `sample_events`) are modelled as the fully forced
sequence of values they yield, with errors aborting the sequence.
-/

/-- JSON values as produced by `json.loads`: objects keep their member order. -/
inductive Json where
  | null : Json
  | boolVal (b : Bool) : Json
  | num (n : Int) : Json
  | str (s : String) : Json
  | arr (elems : List Json) : Json
  | obj (members : List (String × Json)) : Json
deriving Repr

/-- JSON whitespace accepted by `json.loads` between tokens. -/
def jsonWsB (c : Char) : Bool :=
  c == ' ' || c == '\t' || c == '\n' || c == '\r'

/-- Skip leading JSON whitespace. -/
def skipWs (cs : List Char) : List Char := cs.dropWhile jsonWsB

/-- Remove an expected literal from the front of a character list, or fail. -/
def stripPref : List Char → List Char → Option (List Char)
  | [], cs => some cs
  | _ :: _, [] => none
  | p :: ps, c :: cs => if p = c then stripPref ps cs else none

/-- Value of a hexadecimal digit character. -/
def hexVal (c : Char) : Option Nat :=
  if c.isDigit then some (c.toNat - 48)
  else if 97 ≤ c.toNat ∧ c.toNat ≤ 102 then some (c.toNat - 87)
  else if 65 ≤ c.toNat ∧ c.toNat ≤ 70 then some (c.toNat - 55)
  else none

/-- Single-character JSON string escapes (everything but `\u`). -/
def escChar (c : Char) : Option Char :=
  if c = '"' then some '"'
  else if c = '\\' then some '\\'
  else if c = '/' then some '/'
  else if c = 'b' then some (Char.ofNat 8)
  else if c = 'f' then some (Char.ofNat 12)
  else if c = 'n' then some '\n'
  else if c = 'r' then some '\r'
  else if c = 't' then some '\t'
  else none

/-- Parse the remainder of a JSON string literal after the opening quote,
returning the decoded characters and what follows the closing quote. -/
def parseStringRest : List Char → Option (List Char × List Char)
  | [] => none
  | '"' :: rest => some ([], rest)
  | '\\' :: 'u' :: h1 :: h2 :: h3 :: h4 :: rest =>
    match hexVal h1, hexVal h2, hexVal h3, hexVal h4 with
    | some v1, some v2, some v3, some v4 =>
      (parseStringRest rest).map
        (fun p => (Char.ofNat (((v1 * 16 + v2) * 16 + v3) * 16 + v4) :: p.1, p.2))
    | _, _, _, _ => none
  | '\\' :: e :: rest =>
    match escChar e with
    | some c => (parseStringRest rest).map (fun p => (c :: p.1, p.2))
    | none => none
  | c :: rest => (parseStringRest rest).map (fun p => (c :: p.1, p.2))

/-- Accumulate decimal digits into a natural number. -/
def digitsToNat (acc : Nat) : List Char → Nat × List Char
  | [] => (acc, [])
  | c :: rest =>
    if c.isDigit then digitsToNat (acc * 10 + (c.toNat - 48)) rest else (acc, c :: rest)

/-- Parse one or more decimal digits. -/
def parseNat : List Char → Option (Nat × List Char)
  | [] => none
  | c :: rest => if c.isDigit then some (digitsToNat (c.toNat - 48) rest) else none

/-- Parse a JSON integer (Python floats are elided from the model). -/
def parseNumber : List Char → Option (Json × List Char)
  | '-' :: rest => (parseNat rest).map (fun p => (Json.num (-(p.1 : Int)), p.2))
  | cs => (parseNat cs).map (fun p => (Json.num (p.1 : Int), p.2))

mutual

/-- Parse one JSON value; `fuel` bounds the recursion depth. -/
def parseValue : Nat → List Char → Option (Json × List Char)
  | 0, _ => none
  | fuel + 1, cs =>
    match cs with
    | [] => none
    | c :: rest =>
      if c = 'n' then (stripPref ['u', 'l', 'l'] rest).map (fun r => (Json.null, r))
      else if c = 't' then (stripPref ['r', 'u', 'e'] rest).map (fun r => (Json.boolVal true, r))
      else if c = 'f' then (stripPref ['a', 'l', 's', 'e'] rest).map (fun r => (Json.boolVal false, r))
      else if c = '"' then (parseStringRest rest).map (fun p => (Json.str (String.mk p.1), p.2))
      else if c = '[' then
        match skipWs rest with
        | ']' :: r2 => some (Json.arr [], r2)
        | r2 => (parseElems fuel r2).map (fun p => (Json.arr p.1, p.2))
      else if c = '\x7b' then
        match skipWs rest with
        | '\x7d' :: r2 => some (Json.obj [], r2)
        | r2 => (parseMembers fuel r2).map (fun p => (Json.obj p.1, p.2))
      else if c = '-' || c.isDigit then parseNumber (c :: rest)
      else none

/-- Parse the comma-separated elements of a non-empty JSON array. -/
def parseElems : Nat → List Char → Option (List Json × List Char)
  | 0, _ => none
  | fuel + 1, cs =>
    match parseValue fuel cs with
    | none => none
    | some (v, r) =>
      match skipWs r with
      | ',' :: r2 => (parseElems fuel (skipWs r2)).map (fun p => (v :: p.1, p.2))
      | ']' :: r2 => some ([v], r2)
      | _ => none

/-- Parse the members of a non-empty JSON object. -/
def parseMembers : Nat → List Char → Option (List (String × Json) × List Char)
  | 0, _ => none
  | fuel + 1, cs =>
    match cs with
    | '"' :: rest =>
      match parseStringRest rest with
      | none => none
      | some (k, r) =>
        match skipWs r with
        | ':' :: r2 =>
          match parseValue fuel (skipWs r2) with
          | none => none
          | some (v, r3) =>
            match skipWs r3 with
            | ',' :: r4 =>
              (parseMembers fuel (skipWs r4)).map
                (fun p => ((String.mk k, v) :: p.1, p.2))
            | '\x7d' :: r4 => some ([(String.mk k, v)], r4)
            | _ => none
        | _ => none
    | _ => none

end

/-- Python `json.loads`: parse a complete JSON document, allowing surrounding
whitespace and nothing else. -/
def Json.parse? (s : String) : Option Json :=
  match parseValue (s.length + 1) (skipWs s.toList) with
  | some (v, r) => if skipWs r = [] then some v else none
  | none => none

/-- One character of `json.dumps` output for a string, with `ensure_ascii`. -/
def escapeJsonChar (c : Char) : String :=
  if c = '"' then "\\\""
  else if c = '\\' then "\\\\"
  else if c = '\n' then "\\n"
  else if c = '\r' then "\\r"
  else if c = '\t' then "\\t"
  else if c = Char.ofNat 8 then "\\b"
  else if c = Char.ofNat 12 then "\\f"
  else if c.toNat < 32 || 126 < c.toNat then
    "\\u" ++ String.mk [hexDigitOf (c.toNat / 4096 % 16), hexDigitOf (c.toNat / 256 % 16),
                        hexDigitOf (c.toNat / 16 % 16), hexDigitOf (c.toNat % 16)]
  else String.singleton c
where
  hexDigitOf (n : Nat) : Char :=
    if n < 10 then Char.ofNat (48 + n) else Char.ofNat (87 + n)

/-- Serialize a string the way `json.dumps` does, quotes included. -/
def dumpJsonString (s : String) : String :=
  "\"" ++ String.join (s.toList.map escapeJsonChar) ++ "\""

mutual

/-- Python `json.dumps` with its default separators. -/
def Json.dumps : Json → String
  | .null => "null"
  | .boolVal true => "true"
  | .boolVal false => "false"
  | .num n => toString n
  | .str s => dumpJsonString s
  | .arr xs => "[" ++ dumpsList xs ++ "]"
  | .obj ms => "\x7b" ++ dumpsMembers ms ++ "\x7d"

/-- Comma-separated `json.dumps` of array elements. -/
def dumpsList : List Json → String
  | [] => ""
  | [x] => x.dumps
  | x :: y :: xs => x.dumps ++ ", " ++ dumpsList (y :: xs)

/-- Comma-separated `json.dumps` of object members. -/
def dumpsMembers : List (String × Json) → String
  | [] => ""
  | [(k, v)] => dumpJsonString k ++ ": " ++ v.dumps
  | (k, v) :: m :: ms => dumpJsonString k ++ ": " ++ v.dumps ++ ", " ++ dumpsMembers (m :: ms)

end

/-- An apostrophe, written via its code point to keep string literals plain. -/
def pySq : String := String.singleton (Char.ofNat 39)

mutual

/-- Python `repr` of a decoded JSON value (string escaping inside `repr`
is elided; no claim depends on it). -/
def pyRepr : Json → String
  | .null => "None"
  | .boolVal true => "True"
  | .boolVal false => "False"
  | .num n => toString n
  | .str s => pySq ++ s ++ pySq
  | .arr xs => "[" ++ pyReprList xs ++ "]"
  | .obj ms => "\x7b" ++ pyReprMembers ms ++ "\x7d"

/-- Comma-separated `repr` of list elements. -/
def pyReprList : List Json → String
  | [] => ""
  | [x] => pyRepr x
  | x :: y :: xs => pyRepr x ++ ", " ++ pyReprList (y :: xs)

/-- Comma-separated `repr` of dict items. -/
def pyReprMembers : List (String × Json) → String
  | [] => ""
  | [(k, v)] => pySq ++ k ++ pySq ++ ": " ++ pyRepr v
  | (k, v) :: m :: ms => pySq ++ k ++ pySq ++ ": " ++ pyRepr v ++ ", " ++ pyReprMembers (m :: ms)

end

/-- Python `str()` of a decoded JSON value: strings render bare, anything
else as its `repr`. -/
def pyStr : Json → String
  | .str s => s
  | j => pyRepr j

/-- The whitespace bytes removed by Python `bytes.strip()`. -/
def pyWs (c : Char) : Bool :=
  c == ' ' || c == '\t' || c == '\n' || c == '\r' || c == '\x0b' || c == '\x0c'

/-- Python `bytes.strip()`: drop leading and trailing whitespace. -/
def pyStrip (s : String) : String :=
  String.mk (((s.toList.dropWhile pyWs).reverse.dropWhile pyWs).reverse)

/-- Python `str.rstrip("/")`: drop trailing slashes. -/
def rstripSlashes (s : String) : String :=
  String.mk ((s.toList.reverse.dropWhile (fun c => c == '/')).reverse)

/-- Iterating a file-like object in Python yields its lines, each keeping its
trailing newline; a final unterminated line is yielded too. -/
def iterLinesAux : List Char → List Char → List (List Char)
  | [], acc => if acc = [] then [] else [acc.reverse]
  | '\n' :: rest, acc => ('\n' :: acc).reverse :: iterLinesAux rest []
  | c :: rest, acc => iterLinesAux rest (c :: acc)

/-- Lines of a streamed response body, as Python file iteration produces them. -/
def iterLines (s : String) : List String :=
  (iterLinesAux s.toList []).map String.mk

/-- Run `json.loads` over each line in order; a line that fails to decode is a
fatal error for the whole sequence, as an exception ends a generator. -/
def decodeLines : List String → Option (List Json)
  | [] => some []
  | l :: ls =>
    match Json.parse? l with
    | none => none
    | some j => (decodeLines ls).map (j :: ·)

example : Json.parse? "\x7b\"a\": [1, true, null]\x7d"
    = some (Json.obj [("a", Json.arr [Json.num 1, Json.boolVal true, Json.null])]) := rfl

example : Json.parse? "\n" = none := rfl

example : Json.dumps (Json.obj [("kind", Json.str "file"), ("interactive", Json.boolVal false)])
    = "\x7b\"kind\": \"file\", \"interactive\": false\x7d" := rfl

/-- An outgoing HTTP request, as built by `urllib.request.Request`. -/
structure Request where
  method : String
  url : String
  headers : List (String × String)
  data : Option String
deriving Repr

/-- Request.add_header. -/
def Request.add_header (r : Request) (k v : String) : Request :=
  { r with headers := r.headers ++ [(k, v)] }

/-- The `HTTPError` `urlopen` raises on a non-2xx status: the status and the
readable error body. -/
structure HTTPError where
  status : Nat
  body : String
deriving Repr, DecidableEq

/-- Perform a request against the ambient network `net`, which gives the
status and body the server answers with; a non-2xx status raises `HTTPError`,
as `urllib.request.urlopen` does (redirect handling is elided: `net` answers
with the final response). -/
def urlopen (net : Request → Nat × String) (r : Request) : Except HTTPError String :=
  let sb := net r
  if 200 ≤ sb.1 ∧ sb.1 < 300 then .ok sb.2 else .error ⟨sb.1, sb.2⟩

/-- Python exceptions surfaced by the client layer. -/
inductive PyExc where
  | serverError (status : Nat) (kind message : Json)
  | httpError (e : HTTPError)
  | jsonDecodeError
  | keyError (k : String)
  | typeError
  | valueError (msg : String)
deriving Repr

/-- Python subscripting `j[k]` on a decoded JSON value: dict lookup (later
duplicate keys win, as in `json.loads`), `KeyError` when absent, `TypeError`
on non-dicts. -/
def pyGetKey (j : Json) (k : String) : Except PyExc Json :=
  match j with
  | .obj kvs =>
    match kvs.reverse.find? (fun kv => kv.1 == k) with
    | some kv => .ok kv.2
    | none => .error (.keyError k)
  | _ => .error .typeError

/-- The ServerError exception object, after successful construction. -/
structure ServerError where
  status : Nat
  kind : Json
  message : Json

/-- ServerError.__init__: `json.load` the error body and read its `error` and
`message` keys; an exception raised here propagates instead of a ServerError. -/
def ServerError.init (e : HTTPError) : Except PyExc ServerError :=
  match Json.parse? e.body with
  | none => .error .jsonDecodeError
  | some b =>
    match pyGetKey b "error" with
    | .error exc => .error exc
    | .ok kind =>
      match pyGetKey b "message" with
      | .error exc => .error exc
      | .ok msg => .ok ⟨e.status, kind, msg⟩

/-- ServerError.__str__. -/
def ServerError.render (e : ServerError) : String :=
  "triage: " ++ toString e.status ++ " " ++ pyStr e.kind ++ ": " ++ pyStr e.message

/-- The module-level `version = 'alpha'`. -/
def clientVersion : String := "alpha"

/-- The Client: a token and a root URL. -/
structure Client where
  token : String
  root_url : String

/-- Client.__init__, with the default root URL and its trailing-slash strip. -/
def Client.init (token : String) (root_url : String := "https://api.tria.ge") : Client :=
  ⟨token, rstripSlashes root_url⟩

/-- Client._new_request. `pyVersion` stands for `sys.version.split(' ')[0]`,
an ambient-environment value. -/
def Client._new_request (c : Client) (pyVersion method path : String)
    (data : Option String := none) : Request :=
  { method := method
    url := c.root_url ++ path
    headers := [("Authorization", "Bearer " ++ c.token),
                ("User-Agent", "Triage Python Client/" ++ clientVersion ++ " Python/" ++ pyVersion)]
    data := data }

/-- Client._req_file: raw-byte call; an `HTTPError` propagates as-is. -/
def Client._req_file (c : Client) (pyVersion : String) (net : Request → Nat × String)
    (method path : String) : Except PyExc String :=
  match urlopen net (c._new_request pyVersion method path) with
  | .ok body => .ok body
  | .error e => .error (.httpError e)

/-- The request `Client._req_json` issues: the serialized JSON body and its
content type are attached only when a body is present. -/
def Client._req_json_request (c : Client) (pyVersion method path : String)
    (data : Option Json) : Request :=
  match data with
  | none => c._new_request pyVersion method path
  | some d =>
    (c._new_request pyVersion method path (some (Json.dumps d))).add_header
      "Content-Type" "application/json"

/-- Client._req_json: decode the 2xx body as JSON; on `HTTPError`, raise the
`ServerError` built from the error body. -/
def Client._req_json (c : Client) (pyVersion : String) (net : Request → Nat × String)
    (method path : String) (data : Option Json := none) : Except PyExc Json :=
  match urlopen net (c._req_json_request pyVersion method path data) with
  | .ok body =>
    match Json.parse? body with
    | some j => .ok j
    | none => .error .jsonDecodeError
  | .error err =>
    match ServerError.init err with
    | .ok se => .error (.serverError se.status se.kind se.message)
    | .error exc => .error exc

/-- A multipart form field value: a scalar, or a `(filename, contents)` pair
where the contents are what `file.read()` returned. -/
inductive FieldValue where
  | scalar (value : String)
  | file (filename : String) (contents : String)

/-- The body fragment one field contributes: one iteration of the loop in
`encode_multipart_formdata` (note the missing space after `form-data;` in the
scalar branch, exactly as in the source). -/
def encodeField (boundary field : String) : FieldValue → String
  | .file filename contents =>
    "--" ++ boundary ++ "\r\nContent-Disposition: form-data; filename=\"" ++ filename ++
      "\"; name=\"" ++ field ++ "\"\r\n\r\n" ++ contents ++ "\r\n"
  | .scalar v =>
    "--" ++ boundary ++ "\r\nContent-Disposition: form-data;name=\"" ++ field ++
      "\"\r\n\r\n" ++ v ++ "\r\n"

/-- encode_multipart_formdata. `boundary` stands for the random
`binascii.hexlify(os.urandom(16))` token generated per call; the fields are
written in iteration order, then the closing delimiter. Returns the body and
the content-type header value. -/
def encode_multipart_formdata (boundary : String)
    (fields : List (String × FieldValue)) : String × String :=
  (fields.foldl (fun acc fv => acc ++ encodeField boundary fv.1 fv.2) "" ++
     ("--" ++ boundary ++ "--\r\n"),
   "multipart/form-data; boundary=" ++ boundary)

/-- The `_json` metadata payload of submit_sample_file. -/
def submitFilePayload (interactive : Bool) (profiles : List Json) : Json :=
  .obj [("kind", .str "file"), ("interactive", .boolVal interactive),
        ("profiles", .arr profiles)]

/-- The multipart fields submit_sample_file passes to the encoder, in dict
insertion order: the `_json` metadata first, then the file. -/
def submitFileFields (filename contents : String) (interactive : Bool)
    (profiles : List Json) : List (String × FieldValue) :=
  [("_json", .scalar (Json.dumps (submitFilePayload interactive profiles))),
   ("file", .file filename contents)]

/-- The request submit_sample_file issues. -/
def Client.submit_sample_file_request (c : Client)
    (pyVersion boundary filename contents : String) (interactive : Bool)
    (profiles : List Json) : Request :=
  let bc := encode_multipart_formdata boundary
    (submitFileFields filename contents interactive profiles)
  (c._new_request pyVersion "POST" "/v0/samples" (some bc.1)).add_header
    "Content-Type" bc.2

/-- Client.submit_sample_file: multipart upload with the same error
translation as a JSON call. -/
def Client.submit_sample_file (c : Client) (pyVersion : String)
    (net : Request → Nat × String) (boundary filename contents : String)
    (interactive : Bool := false) (profiles : List Json := []) : Except PyExc Json :=
  match urlopen net (c.submit_sample_file_request pyVersion boundary filename
      contents interactive profiles) with
  | .ok body =>
    match Json.parse? body with
    | some j => .ok j
    | none => .error .jsonDecodeError
  | .error err =>
    match ServerError.init err with
    | .ok se => .error (.serverError se.status se.kind se.message)
    | .error exc => .error exc

/-- Client.submit_sample_url. -/
def Client.submit_sample_url (c : Client) (pyVersion : String)
    (net : Request → Nat × String) (url : String) (interactive : Bool := false)
    (profiles : List Json := []) : Except PyExc Json :=
  c._req_json pyVersion net "POST" "/v0/samples"
    (some (.obj [("kind", .str "url"), ("url", .str url),
                 ("interactive", .boolVal interactive), ("profiles", .arr profiles)]))

/-- Client.set_sample_profile. -/
def Client.set_sample_profile (c : Client) (pyVersion : String)
    (net : Request → Nat × String) (sample_id : String)
    (profiles : List Json) : Except PyExc Json :=
  c._req_json pyVersion net "POST" ("/v0/samples/" ++ sample_id ++ "/profile")
    (some (.obj [("auto", .boolVal false), ("profiles", .arr profiles)]))

/-- Client.set_sample_profile_automatically. -/
def Client.set_sample_profile_automatically (c : Client) (pyVersion : String)
    (net : Request → Nat × String) (sample_id : String)
    (pick : List Json := []) : Except PyExc Json :=
  c._req_json pyVersion net "POST" ("/v0/samples/" ++ sample_id ++ "/profile")
    (some (.obj [("auto", .boolVal true), ("pick", .arr pick)]))

/-- Client.sample_by_id. -/
def Client.sample_by_id (c : Client) (pyVersion : String)
    (net : Request → Nat × String) (sample_id : String) : Except PyExc Json :=
  c._req_json pyVersion net "GET" ("/v0/samples/" ++ sample_id)

/-- Client.delete_sample. -/
def Client.delete_sample (c : Client) (pyVersion : String)
    (net : Request → Nat × String) (sample_id : String) : Except PyExc Json :=
  c._req_json pyVersion net "DELETE" ("/v0/samples/" ++ sample_id)

/-- Client.static_report. -/
def Client.static_report (c : Client) (pyVersion : String)
    (net : Request → Nat × String) (sample_id : String) : Except PyExc Json :=
  c._req_json pyVersion net "GET" ("/v0/samples/" ++ sample_id ++ "/reports/static")

/-- Client.overview_report. -/
def Client.overview_report (c : Client) (pyVersion : String)
    (net : Request → Nat × String) (sample_id : String) : Except PyExc Json :=
  c._req_json pyVersion net "GET" ("/v1/samples/" ++ sample_id ++ "/overview.json")

/-- Client.task_report. -/
def Client.task_report (c : Client) (pyVersion : String)
    (net : Request → Nat × String) (sample_id task_id : String) : Except PyExc Json :=
  c._req_json pyVersion net "GET"
    ("/v0/samples/" ++ sample_id ++ "/" ++ task_id ++ "/report_triage.json")

/-- Client.sample_task_file: raw bytes via _req_file. -/
def Client.sample_task_file (c : Client) (pyVersion : String)
    (net : Request → Nat × String) (sample_id task_id filename : String) :
    Except PyExc String :=
  c._req_file pyVersion net "GET"
    ("/v0/samples/" ++ sample_id ++ "/" ++ task_id ++ "/" ++ filename)

/-- Client.sample_archive_tar: raw bytes via _req_file. -/
def Client.sample_archive_tar (c : Client) (pyVersion : String)
    (net : Request → Nat × String) (sample_id : String) : Except PyExc String :=
  c._req_file pyVersion net "GET" ("/v0/samples/" ++ sample_id ++ "/archive")

/-- Client.sample_archive_zip: raw bytes via _req_file. -/
def Client.sample_archive_zip (c : Client) (pyVersion : String)
    (net : Request → Nat × String) (sample_id : String) : Except PyExc String :=
  c._req_file pyVersion net "GET" ("/v0/samples/" ++ sample_id ++ "/archive.zip")

/-- Client.create_profile. -/
def Client.create_profile (c : Client) (pyVersion : String)
    (net : Request → Nat × String) (name : String) (tags : List Json)
    (network : Json) (timeout : Int) : Except PyExc Json :=
  c._req_json pyVersion net "POST" "/v0/profiles"
    (some (.obj [("name", .str name), ("tags", .arr tags),
                 ("network", network), ("timeout", .num timeout)]))

/-- Client.delete_profile. -/
def Client.delete_profile (c : Client) (pyVersion : String)
    (net : Request → Nat × String) (profile_id : String) : Except PyExc Json :=
  c._req_json pyVersion net "DELETE" ("/v0/profiles/" ++ profile_id)

/-- The Paginator object as client.py constructs it; the iteration logic
lives in `triage/pagination.py`, outside the given sources. -/
structure Paginator where
  client : Client
  path : String
  maxItems : Nat

/-- Client.owned_samples. -/
def Client.owned_samples (c : Client) (max : Nat := 20) : Paginator :=
  ⟨c, "/v0/samples?subset=owned", max⟩

/-- Client.public_samples. -/
def Client.public_samples (c : Client) (max : Nat := 20) : Paginator :=
  ⟨c, "/v0/samples?subset=public", max⟩

/-- Client.profiles. -/
def Client.profiles (c : Client) (max : Nat := 20) : Paginator :=
  ⟨c, "/v0/profiles", max⟩

/-- Python substring test `needle in hay` on strings. -/
def listContains (needle : List Char) : List Char → Bool
  | [] => needle.isEmpty
  | c :: cs => needle.isPrefixOf (c :: cs) || listContains needle cs

/-- Python `needle in hay` for strings. -/
def strContains (hay needle : String) : Bool :=
  listContains needle.toList hay.toList

/-- Keys of a Python dict in insertion order: duplicates keep their first
position (with `json.loads`, the last value — see `pyGetKey`). -/
def dedupFirst : List String → List String
  | [] => []
  | k :: ks => k :: dedupFirst (ks.filter (fun x => x != k))
  termination_by l => l.length
  decreasing_by
    simpa using Nat.lt_succ_of_le (List.length_filter_le _ _)

/-- Python iteration over a decoded JSON value: lists yield their elements,
dicts their keys, strings their characters; other values raise TypeError. -/
def pyIter : Json → Except PyExc (List Json)
  | .arr xs => .ok xs
  | .obj ms => .ok ((dedupFirst (ms.map (fun kv => kv.1))).map Json.str)
  | .str s => .ok (s.toList.map (fun ch => Json.str (String.singleton ch)))
  | _ => .error .typeError

/-- The `for t in overview["tasks"]` search loop of kernel_report: the first
task whose `name` equals `task_id`, None when the loop falls through; a task
without a `name` raises KeyError (non-dict entries raise TypeError). -/
def findTask : List Json → String → Except PyExc (Option Json)
  | [], _ => .ok none
  | t :: ts, tid =>
    match pyGetKey t "name" with
    | .error exc => .error exc
    | .ok (.str s) => if s == tid then .ok (some t) else findTask ts tid
    | .ok _ => findTask ts tid

/-- Lift the result of decoding a line sequence into the exception model: a
failed line raises the JSON decode error. -/
def decodedOrError : Option (List Json) → Except PyExc (List Json)
  | some js => .ok js
  | none => .error .jsonDecodeError

/-- Splitting at every occurrence of a separator character; the accumulator
holds the current run reversed. -/
def splitOnCharAux (sep : Char) : List Char → List Char → List (List Char)
  | [], acc => [acc.reverse]
  | c :: rest, acc =>
    if c = sep then acc.reverse :: splitOnCharAux sep rest []
    else splitOnCharAux sep rest (c :: acc)

/-- Python `raw.split(b"\n")`: the runs between newline bytes, empty runs
included — the empty string yields one empty run. -/
def pySplitNL (s : String) : List String :=
  (splitOnCharAux '\n' s.toList []).map String.mk

/-- The log-stream framing of kernel_report: split the response on newlines,
stop at the first line that strips to empty, `json.loads` each earlier line. -/
def kernelStream (raw : String) : Except PyExc (List Json) :=
  decodedOrError (decodeLines ((pySplitNL raw).takeWhile (fun e => pyStrip e != "")))

/-- Client.sample_events, forced to a list: every received line is passed to
`json.loads`; there is no blank-line check in this loop. -/
def Client.sample_events (c : Client) (pyVersion : String)
    (net : Request → Nat × String) (sample_id : String) : Except PyExc (List Json) :=
  match urlopen net (c._new_request pyVersion "GET"
      ("/v0/samples/" ++ sample_id ++ "/events")) with
  | .error e => .error (.httpError e)
  | .ok raw => decodedOrError (decodeLines (iterLines raw))

/-- Client.kernel_report, forced to a list; the second component records the
requests issued, in order: the overview fetch first, then the selected log
fetch when one is made. A non-string `platform` is modelled as TypeError
(`in` against a non-string container differs in Python, but no claim involves
one). -/
def Client.kernel_report (c : Client) (pyVersion : String)
    (net : Request → Nat × String) (sample_id task_id : String) :
    Except PyExc (List Json) × List Request :=
  let overviewReq := c._req_json_request pyVersion "GET"
    ("/v1/samples/" ++ sample_id ++ "/overview.json") none
  match c.overview_report pyVersion net sample_id with
  | .error exc => (.error exc, [overviewReq])
  | .ok overview =>
    match pyGetKey overview "tasks" with
    | .error exc => (.error exc, [overviewReq])
    | .ok tasksVal =>
      match pyIter tasksVal with
      | .error exc => (.error exc, [overviewReq])
      | .ok tasks =>
        match findTask tasks task_id with
        | .error exc => (.error exc, [overviewReq])
        | .ok none => (.error (.valueError "Task does not exist"), [overviewReq])
        | .ok (some task) =>
          match pyGetKey task "platform" with
          | .error exc => (.error exc, [overviewReq])
          | .ok (.str platform) =>
            if strContains platform "windows" then
              let logReq := c._new_request pyVersion "GET"
                ("/v0/samples/" ++ sample_id ++ "/" ++ task_id ++ "/logs/onemon.json")
              (match urlopen net logReq with
               | .error e => .error (.httpError e)
               | .ok raw => kernelStream raw, [overviewReq, logReq])
            else if strContains platform "linux" then
              let logReq := c._new_request pyVersion "GET"
                ("/v0/samples/" ++ sample_id ++ "/" ++ task_id ++ "/logs/stahp.json")
              (match urlopen net logReq with
               | .error e => .error (.httpError e)
               | .ok raw => kernelStream raw, [overviewReq, logReq])
            else (.error (.valueError "Platform not supported"), [overviewReq])
          | .ok _ => (.error .typeError, [overviewReq])

/-- One page returned by a listing endpoint: items plus the next-page cursor,
absent on the last page. -/
structure PageResponse where
  items : List Json
  next : Option Nat

/-- Modelled from the spec: the Paginator iteration of `triage/pagination.py`,
which client.py imports but which is not among the sources; this follows the
Paginator contract of the spec. `server` maps a cursor to a page. Fetch a page
only when items are still wanted; stop on an empty page, when the emitted
count reaches the cap, or when the next cursor is absent. Returns the yielded
items and the number of page requests issued. `fuel` only bounds recursion:
every fetched page either ends the run or yields an item, so `remaining` fuel
is enough. -/
def paginateFrom (server : Nat → PageResponse) : Nat → Nat → Nat → List Json × Nat
  | _, _, 0 => ([], 0)
  | 0, _, _ => ([], 0)
  | fuel + 1, cursor, remaining + 1 =>
    let page := server cursor
    if page.items.isEmpty then ([], 1)
    else if remaining + 1 ≤ page.items.length then (page.items.take (remaining + 1), 1)
    else
      match page.next with
      | none => (page.items, 1)
      | some c2 =>
        let rec2 := paginateFrom server fuel c2 (remaining + 1 - page.items.length)
        (page.items ++ rec2.1, rec2.2 + 1)

/-- Modelled from the spec: consuming a Paginator to exhaustion against
`server`. -/
def Paginator.consume (p : Paginator) (server : Nat → PageResponse) :
    List Json × Nat :=
  paginateFrom server p.maxItems 0 p.maxItems

/-- A fixture listing endpoint holding `items`, served in pages of `ps` from
an offset cursor, with the next cursor embedded while items remain. -/
def fixtureServer (items : List Json) (ps : Nat) (cursor : Nat) : PageResponse :=
  ⟨(items.drop cursor).take ps,
   if cursor + ps < items.length then some (cursor + ps) else none⟩

/-- One parsed part of a multipart body. -/
structure MPart where
  name : String
  filename : Option String
  content : String
deriving Repr

/-- The CR LF pair. -/
def crlfM : List Char := ['\r', '\n']

/-- The blank line separating headers from content. -/
def dblCrlf : List Char := ['\r', '\n', '\r', '\n']

/-- Two dashes, as in multipart delimiters. -/
def dashDash : List Char := ['-', '-']

/-- Scan for the first occurrence of `marker`, returning the text before it
and the text after it; fails when the marker never occurs. -/
def splitOnMarker (marker : List Char) : List Char → Option (List Char × List Char)
  | [] => none
  | c :: cs =>
    if marker.isPrefixOf (c :: cs) then some ([], (c :: cs).drop marker.length)
    else
      match splitOnMarker marker cs with
      | some p => some (c :: p.1, p.2)
      | none => none

/-- Drop the leading spaces and tabs of a header parameter. -/
def trimLeadingWs : List Char → List Char
  | [] => []
  | c :: cs => if c = ' ' ∨ c = '\t' then trimLeadingWs cs else c :: cs

/-- Parse the `; key="value"` parameter list of a Content-Disposition header,
as a standard parser does: split at semicolons, strip whitespace, unquote. -/
def parseParams : Nat → List Char → Option (List (List Char × List Char))
  | _, [] => some []
  | 0, _ :: _ => none
  | fuel + 1, ';' :: r =>
    match splitOnMarker ['='] (trimLeadingWs r) with
    | none => none
    | some (key, r2) =>
      match r2 with
      | '"' :: r3 =>
        match splitOnMarker ['"'] r3 with
        | none => none
        | some (v, r4) => (parseParams fuel r4).map (fun ps => (key, v) :: ps)
      | _ => none
  | _ + 1, _ => none

/-- Parse a Content-Disposition header block into the field name and the
optional filename. -/
def parseContentDisposition (hdr : List Char) : Option (String × Option String) :=
  match stripPref ("Content-Disposition: form-data").toList hdr with
  | none => none
  | some r =>
    match parseParams (r.length + 1) r with
    | none => none
    | some ps =>
      match ps.find? (fun kv => kv.1 == ("name").toList) with
      | none => none
      | some nameKv =>
        some (String.mk nameKv.2,
          (ps.find? (fun kv => kv.1 == ("filename").toList)).map
            (fun kv => String.mk kv.2))

/-- Parse the parts of a multipart body. `s` is positioned just after a
`--boundary` delimiter: either the closing `--` and final CR LF follow, or a
CR LF, a header block, a blank line, and content running to the next
delimiter. -/
def parseParts (boundary : List Char) : Nat → List Char → Option (List MPart)
  | 0, _ => none
  | fuel + 1, s =>
    if dashDash.isPrefixOf s then
      if s = dashDash ++ crlfM then some [] else none
    else
      match stripPref crlfM s with
      | none => none
      | some s1 =>
        match splitOnMarker dblCrlf s1 with
        | none => none
        | some (hdr, s2) =>
          match splitOnMarker (crlfM ++ dashDash ++ boundary) s2 with
          | none => none
          | some (content, s3) =>
            match parseContentDisposition hdr, parseParts boundary fuel s3 with
            | some nf, some parts => some (⟨nf.1, nf.2, String.mk content⟩ :: parts)
            | _, _ => none

/-- A standard multipart/form-data parser: take the boundary from the
content-type value, strip the first delimiter, and read the parts. -/
def parse_multipart (contentType body : String) : Option (List MPart) :=
  match stripPref ("multipart/form-data; boundary=").toList contentType.toList with
  | none => none
  | some boundary =>
    match stripPref (dashDash ++ boundary) body.toList with
    | none => none
    | some s => parseParts boundary (s.length + 1) s

/-! ### General lemmas about the scanning helpers -/

theorem stripPref_append (p r : List Char) : stripPref p (p ++ r) = some r := by
  induction p with
  | nil => rfl
  | cons c cs ih => simp [stripPref, ih]

theorem listContains_eq_false_of_lt (needle l : List Char)
    (h : l.length < needle.length) : listContains needle l = false := by
  induction l with
  | nil =>
    cases needle with
    | nil => simp at h
    | cons n ns => simp [listContains]
  | cons c cs ih =>
    have h1 : needle.isPrefixOf (c :: cs) = false := by
      rw [Bool.eq_false_iff]
      intro hp
      have := (List.isPrefixOf_iff_prefix.mp hp).length_le
      simp at this h
      omega
    have h2 := ih (by simp at h ⊢; omega)
    simp [listContains, h1, h2]

theorem listContains_head_miss (h : Char) (t content : List Char)
    (hc : ∀ c ∈ content, c ≠ h) :
    listContains (h :: t) ((content ++ h :: t).dropLast) = false := by
  induction content with
  | nil =>
    apply listContains_eq_false_of_lt
    simp
  | cons c cs ih =>
    have hne : cs ++ h :: t ≠ [] := by simp
    rw [List.cons_append, List.dropLast_cons_of_ne_nil hne]
    have hch : (h == c) = false := by
      have := hc c (List.mem_cons_self c cs)
      simp only [beq_eq_false_iff_ne, ne_eq]
      exact fun hh => this hh.symm
    have h1 : (h :: t).isPrefixOf (c :: (cs ++ h :: t).dropLast) = false := by
      simp [List.isPrefixOf, hch]
    have h2 := ih (fun x hx => hc x (List.mem_cons_of_mem c hx))
    rw [listContains, h1, h2]
    rfl

theorem splitOnMarker_append (marker content rest : List Char)
    (hm : marker ≠ [])
    (hc : listContains marker ((content ++ marker).dropLast) = false) :
    splitOnMarker marker (content ++ marker ++ rest) = some (content, rest) := by
  induction content with
  | nil =>
    obtain ⟨m, ms, rfl⟩ := List.exists_cons_of_ne_nil hm
    simp only [List.nil_append, List.cons_append]
    rw [splitOnMarker]
    have hp : (m :: ms).isPrefixOf (m :: (ms ++ rest)) = true := by
      rw [List.isPrefixOf_iff_prefix]
      exact ⟨rest, by simp⟩
    rw [hp]
    simp only [if_true]
    have hd : List.drop (m :: ms).length ((m :: ms) ++ rest) = rest := List.drop_left _ _
    simp only [List.cons_append] at hd
    rw [hd]
  | cons c cs ih =>
    rw [List.cons_append] at hc
    have hne : cs ++ marker ≠ [] := by simp [hm]
    rw [List.dropLast_cons_of_ne_nil hne, listContains] at hc
    rw [Bool.or_eq_false_iff] at hc
    obtain ⟨h1, h2⟩ := hc
    have hL : 1 ≤ marker.length := by
      cases marker with
      | nil => exact absurd rfl hm
      | cons a as => simp
    have hpf : marker.isPrefixOf (c :: (cs ++ (marker ++ rest))) = false := by
      rw [Bool.eq_false_iff]
      intro hp
      have hp2 := List.isPrefixOf_iff_prefix.mp hp
      have hp3 : marker <+: (c :: (cs ++ (marker ++ rest))).take (cs.length + marker.length) :=
        List.prefix_take_iff.mpr ⟨hp2, by omega⟩
      have he : (c :: (cs ++ (marker ++ rest))).take (cs.length + marker.length) =
          c :: (cs ++ marker).dropLast := by
        have hstep : cs.length + marker.length = (cs.length + marker.length - 1) + 1 := by omega
        rw [hstep, List.take_succ_cons]
        congr 1
        rw [show cs ++ (marker ++ rest) = (cs ++ marker) ++ rest from by simp,
            List.take_append_of_le_length (by simp only [List.length_append]; omega),
            List.dropLast_eq_take]
        congr 1
        simp
      rw [he] at hp3
      have hcontr := List.isPrefixOf_iff_prefix.mpr hp3
      rw [h1] at hcontr
      exact Bool.noConfusion hcontr
    have ihr := ih h2
    simp only [List.cons_append, List.append_assoc] at ihr ⊢
    rw [splitOnMarker, hpf]
    simp only [Bool.false_eq_true, if_false]
    rw [ihr]

/-- Errors raised inside `pyGetKey` are key or type errors, nothing else. -/
theorem pyGetKey_error_shape (j : Json) (k : String) (exc : PyExc)
    (h : pyGetKey j k = .error exc) : exc = .keyError k ∨ exc = .typeError := by
  cases j with
  | obj members =>
    dsimp only [pyGetKey] at h
    cases hfind : members.reverse.find? (fun kv => kv.1 == k) with
    | some kv => rw [hfind] at h; exact absurd h (by simp)
    | none => rw [hfind] at h; left; exact ((Except.error.injEq _ _).mp h).symm
  | null => right; exact ((Except.error.injEq _ _).mp h).symm
  | boolVal b => right; exact ((Except.error.injEq _ _).mp h).symm
  | num n => right; exact ((Except.error.injEq _ _).mp h).symm
  | str s => right; exact ((Except.error.injEq _ _).mp h).symm
  | arr xs => right; exact ((Except.error.injEq _ _).mp h).symm

/-- Errors raised inside `ServerError.init` are decode, key or type errors —
never ServerError-shaped. -/
theorem ServerError.init_error_shape (e : HTTPError) (exc : PyExc)
    (h : ServerError.init e = .error exc) :
    exc = .jsonDecodeError ∨ (∃ key, exc = .keyError key) ∨ exc = .typeError := by
  unfold ServerError.init at h
  cases hp : Json.parse? e.body with
  | none =>
    rw [hp] at h
    dsimp only at h
    left
    exact ((Except.error.injEq _ _).mp h).symm
  | some b =>
    rw [hp] at h
    dsimp only at h
    cases hk : pyGetKey b "error" with
    | error e1 =>
      rw [hk] at h
      dsimp only at h
      have he1 : e1 = exc := (Except.error.injEq _ _).mp h
      rcases pyGetKey_error_shape b "error" e1 hk with h2 | h2
      · exact Or.inr (Or.inl ⟨"error", by rw [← he1, h2]⟩)
      · exact Or.inr (Or.inr (by rw [← he1, h2]))
    | ok kv =>
      rw [hk] at h
      dsimp only at h
      cases hm2 : pyGetKey b "message" with
      | error e2 =>
        rw [hm2] at h
        dsimp only at h
        have he2 : e2 = exc := (Except.error.injEq _ _).mp h
        rcases pyGetKey_error_shape b "message" e2 hm2 with h2 | h2
        · exact Or.inr (Or.inl ⟨"message", by rw [← he2, h2]⟩)
        · exact Or.inr (Or.inr (by rw [← he2, h2]))
      | ok mv =>
        rw [hm2] at h
        exact absurd h (by simp)

/-! ### Claim theorems -/

/-- C8: ServerError stringification is `triage: <status> <kind>: <message>`,
and in particular renders the 404 not_found example exactly. -/
theorem C8_server_error_render :
    (∀ (s : Nat) (k m : String),
      ServerError.render ⟨s, Json.str k, Json.str m⟩ =
        "triage: " ++ toString s ++ " " ++ k ++ ": " ++ m) ∧
    ServerError.render ⟨404, Json.str "not_found", Json.str "sample missing"⟩ =
      "triage: 404 not_found: sample missing" := by
  exact ⟨fun s k m => rfl, rfl⟩

/-- C5: every request built by `_new_request` carries exactly two implicit
headers, the Authorization bearer token and the User-Agent client
identification; a JSON call adds only the JSON content type and only when a
body is present, and the file submission adds only the multipart content
type. -/
theorem C5_request_headers (c : Client) (pyVersion method path : String)
    (dataRaw : Option String) (d : Json) (boundary filename contents : String)
    (interactive : Bool) (profiles : List Json) :
    (c._new_request pyVersion method path dataRaw).headers =
      [("Authorization", "Bearer " ++ c.token),
       ("User-Agent",
        "Triage Python Client/" ++ clientVersion ++ " Python/" ++ pyVersion)] ∧
    (c._req_json_request pyVersion method path none).headers =
      (c._new_request pyVersion method path none).headers ∧
    (c._req_json_request pyVersion method path (some d)).headers =
      (c._new_request pyVersion method path none).headers ++
        [("Content-Type", "application/json")] ∧
    (c.submit_sample_file_request pyVersion boundary filename contents
        interactive profiles).headers =
      (c._new_request pyVersion "POST" "/v0/samples" none).headers ++
        [("Content-Type", "multipart/form-data; boundary=" ++ boundary)] := by
  exact ⟨rfl, rfl, rfl, rfl⟩

/-- C6: a non-2xx on a raw-byte call propagates the underlying HTTPError to
the caller unchanged; raw-byte calls never produce a ServerError, and
`sample_task_file` and the archive downloads are exactly `_req_file` calls. -/
theorem C6_raw_byte_errors (c : Client) (pyVersion : String)
    (net : Request → Nat × String) (method path sample_id task_id filename : String)
    (status : Nat) (body : String)
    (hnet : net (c._new_request pyVersion method path) = (status, body))
    (hs : ¬(200 ≤ status ∧ status < 300)) :
    c._req_file pyVersion net method path = .error (.httpError ⟨status, body⟩) ∧
    (∀ (st : Nat) (k m : Json) (net2 : Request → Nat × String) (m2 p2 : String),
      c._req_file pyVersion net2 m2 p2 ≠ .error (.serverError st k m)) ∧
    c.sample_task_file pyVersion net sample_id task_id filename =
      c._req_file pyVersion net "GET"
        ("/v0/samples/" ++ sample_id ++ "/" ++ task_id ++ "/" ++ filename) ∧
    c.sample_archive_tar pyVersion net sample_id =
      c._req_file pyVersion net "GET" ("/v0/samples/" ++ sample_id ++ "/archive") ∧
    c.sample_archive_zip pyVersion net sample_id =
      c._req_file pyVersion net "GET" ("/v0/samples/" ++ sample_id ++ "/archive.zip") := by
  refine ⟨?_, ?_, rfl, rfl, rfl⟩
  · simp [Client._req_file, urlopen, hnet, hs]
  · intro st k m net2 m2 p2
    unfold Client._req_file
    cases urlopen net2 (c._new_request pyVersion m2 p2) with
    | ok b => simp
    | error e => simp

/-- C3: a non-2xx status on a JSON call (`_req_json` and the multipart file
submission) decodes the error body as an object with `error` and `message`
members and raises a ServerError carrying that status, kind and message; the
failure is surfaced to the caller, never swallowed. -/
theorem C3_json_error_translation (c : Client) (pyVersion : String)
    (net : Request → Nat × String) (method path : String) (data : Option Json)
    (boundary filename contents : String) (interactive : Bool) (profiles : List Json)
    (status : Nat) (body : String) (b : Json) (kind msg : Json)
    (hs : ¬(200 ≤ status ∧ status < 300))
    (hparse : Json.parse? body = some b)
    (hkind : pyGetKey b "error" = .ok kind)
    (hmsg : pyGetKey b "message" = .ok msg) :
    (net (c._req_json_request pyVersion method path data) = (status, body) →
      c._req_json pyVersion net method path data =
        .error (.serverError status kind msg)) ∧
    (net (c.submit_sample_file_request pyVersion boundary filename contents
        interactive profiles) = (status, body) →
      c.submit_sample_file pyVersion net boundary filename contents
        interactive profiles = .error (.serverError status kind msg)) := by
  constructor
  · intro hnet
    simp [Client._req_json, urlopen, hnet, hs, ServerError.init, hparse, hkind, hmsg]
  · intro hnet
    simp [Client.submit_sample_file, urlopen, hnet, hs, ServerError.init, hparse,
      hkind, hmsg]

/-- C10: when the non-2xx error body does not decode to a JSON object carrying
both `error` and `message`, the underlying decode or key error reaches the
caller in place of a ServerError — and such a failure is never
ServerError-shaped. -/
theorem C10_malformed_error_body (c : Client) (pyVersion : String)
    (net : Request → Nat × String) (method path : String) (data : Option Json)
    (status : Nat) (body : String) (exc : PyExc)
    (hnet : net (c._req_json_request pyVersion method path data) = (status, body))
    (hs : ¬(200 ≤ status ∧ status < 300))
    (hfail : ServerError.init ⟨status, body⟩ = .error exc) :
    c._req_json pyVersion net method path data = .error exc ∧
    (exc = .jsonDecodeError ∨ (∃ key, exc = .keyError key) ∨ exc = .typeError) := by
  constructor
  · simp [Client._req_json, urlopen, hnet, hs, hfail]
  · exact ServerError.init_error_shape _ _ hfail

/-- A concrete client for witnesses: token `tok`, default root URL. -/
def wClient : Client := Client.init "tok"

/-- A network answering 404 with a well-formed API error body. -/
def wNet404 : Request → Nat × String :=
  fun _ => (404, "\x7b\"error\": \"not_found\", \"message\": \"sample missing\"\x7d")

/-- A network answering 500 with a body that is not JSON. -/
def wNet500 : Request → Nat × String := fun _ => (500, "oops")

/-- Witness for C6: a concrete 404 on a raw-byte path surfaces as HTTPError. -/
theorem C6_witness :
    Client._req_file wClient "3.8.0" wNet404 "GET" "/v0/samples/s1/t1/f.bin" =
      .error (.httpError
        ⟨404, "\x7b\"error\": \"not_found\", \"message\": \"sample missing\"\x7d"⟩) :=
  (C6_raw_byte_errors wClient "3.8.0" wNet404 "GET" "/v0/samples/s1/t1/f.bin"
    "s1" "t1" "f.bin" 404 _ rfl (by decide)).1

/-- Witness for C3: a concrete 404 JSON error body becomes a ServerError. -/
theorem C3_witness :
    Client._req_json wClient "3.8.0" wNet404 "GET" "/v0/samples/s1" none =
      .error (.serverError 404 (Json.str "not_found") (Json.str "sample missing")) :=
  (C3_json_error_translation wClient "3.8.0" wNet404 "GET" "/v0/samples/s1" none
    "bd" "a.exe" "MZ" false [] 404
    "\x7b\"error\": \"not_found\", \"message\": \"sample missing\"\x7d"
    (Json.obj [("error", Json.str "not_found"), ("message", Json.str "sample missing")])
    (Json.str "not_found") (Json.str "sample missing")
    (by decide) rfl rfl rfl).1 rfl

/-- Witness for C10: a concrete non-JSON 500 body surfaces the decode error. -/
theorem C10_witness :
    Client._req_json wClient "3.8.0" wNet500 "GET" "/v0/samples/s1" none =
      .error .jsonDecodeError :=
  (C10_malformed_error_body wClient "3.8.0" wNet500 "GET" "/v0/samples/s1" none
    500 "oops" .jsonDecodeError rfl (by decide) rfl).1

/-- C2: kernel_report always issues the overview fetch first; a name missing
from the task list raises the task-not-found ValueError with no log request;
a found task routes on its platform string — `windows` to the onemon.json log
path, else `linux` to the stahp.json log path, anything else raises the
unsupported-platform ValueError without issuing a log request. -/
theorem C2_kernel_report_routing (c : Client) (pyVersion : String)
    (net : Request → Nat × String) (sample_id task_id : String)
    (ovBody : String) (ov : Json) (tasks : List Json) (status : Nat)
    (hnet : net (c._req_json_request pyVersion "GET"
      ("/v1/samples/" ++ sample_id ++ "/overview.json") none) = (status, ovBody))
    (h2xx : 200 ≤ status ∧ status < 300)
    (hov : Json.parse? ovBody = some ov)
    (htasks : pyGetKey ov "tasks" = .ok (Json.arr tasks)) :
    (∀ net2 : Request → Nat × String,
      (c.kernel_report pyVersion net2 sample_id task_id).2.head? =
        some (c._req_json_request pyVersion "GET"
          ("/v1/samples/" ++ sample_id ++ "/overview.json") none)) ∧
    (findTask tasks task_id = .ok none →
      c.kernel_report pyVersion net sample_id task_id =
        (.error (.valueError "Task does not exist"),
         [c._req_json_request pyVersion "GET"
           ("/v1/samples/" ++ sample_id ++ "/overview.json") none])) ∧
    (∀ task platform, findTask tasks task_id = .ok (some task) →
      pyGetKey task "platform" = .ok (Json.str platform) →
      (strContains platform "windows" = true →
        (c.kernel_report pyVersion net sample_id task_id).2 =
          [c._req_json_request pyVersion "GET"
             ("/v1/samples/" ++ sample_id ++ "/overview.json") none,
           c._new_request pyVersion "GET"
             ("/v0/samples/" ++ sample_id ++ "/" ++ task_id ++ "/logs/onemon.json")
             none]) ∧
      (strContains platform "windows" = false →
       strContains platform "linux" = true →
        (c.kernel_report pyVersion net sample_id task_id).2 =
          [c._req_json_request pyVersion "GET"
             ("/v1/samples/" ++ sample_id ++ "/overview.json") none,
           c._new_request pyVersion "GET"
             ("/v0/samples/" ++ sample_id ++ "/" ++ task_id ++ "/logs/stahp.json")
             none]) ∧
      (strContains platform "windows" = false →
       strContains platform "linux" = false →
        c.kernel_report pyVersion net sample_id task_id =
          (.error (.valueError "Platform not supported"),
           [c._req_json_request pyVersion "GET"
             ("/v1/samples/" ++ sample_id ++ "/overview.json") none]))) := by
  have hovr : c.overview_report pyVersion net sample_id = .ok ov := by
    simp [Client.overview_report, Client._req_json, urlopen, hnet, h2xx, hov]
  refine ⟨?_, ?_, ?_⟩
  · intro net2
    unfold Client.kernel_report
    repeat' first | rfl | split
  · intro hfind
    simp only [Client.kernel_report, hovr, htasks, pyIter, hfind]
  · intro task platform hfind hplat
    refine ⟨?_, ?_, ?_⟩
    · intro hw
      simp only [Client.kernel_report, hovr, htasks, pyIter, hfind, hplat, hw, if_true]
    · intro hw hl
      simp only [Client.kernel_report, hovr, htasks, pyIter, hfind, hplat, hw, hl,
        Bool.false_eq_true, if_false, if_true]
    · intro hw hl
      simp only [Client.kernel_report, hovr, htasks, pyIter, hfind, hplat, hw, hl,
        Bool.false_eq_true, if_false]

/-- The overview body used by the C2 witness: one windows task named t1. -/
def wTask : Json := Json.obj [("name", Json.str "t1"), ("platform", Json.str "windows10")]

/-- A network serving an overview with one windows task for every request. -/
def wNetOverview : Request → Nat × String :=
  fun _ =>
    (200, "\x7b\"tasks\": [\x7b\"name\": \"t1\", \"platform\": \"windows10\"\x7d]\x7d")

/-- Witness for C2: with a windows task t1, the requests issued are the
overview fetch then the onemon.json log fetch. -/
theorem C2_witness :
    (Client.kernel_report wClient "3.8.0" wNetOverview "s1" "t1").2 =
      [Client._req_json_request wClient "3.8.0" "GET"
         ("/v1/samples/" ++ "s1" ++ "/overview.json") none,
       Client._new_request wClient "3.8.0" "GET"
         ("/v0/samples/" ++ "s1" ++ "/" ++ "t1" ++ "/logs/onemon.json") none] :=
  ((C2_kernel_report_routing wClient "3.8.0" wNetOverview "s1" "t1"
      "\x7b\"tasks\": [\x7b\"name\": \"t1\", \"platform\": \"windows10\"\x7d]\x7d"
      (Json.obj [("tasks", Json.arr [wTask])]) [wTask] 200
      rfl (by decide) rfl rfl).2.2 wTask "windows10" rfl rfl).1 rfl

/-- takeWhile of a list whose first failing element is a known sentinel keeps
exactly the elements before the sentinel. -/
theorem takeWhile_append_sentinel {α : Type} (p : α → Bool) (pre post : List α)
    (blank : α) (hpre : ∀ l ∈ pre, p l = true) (hblank : p blank = false) :
    (pre ++ blank :: post).takeWhile p = pre := by
  induction pre with
  | nil => simp [List.takeWhile_cons, hblank]
  | cons x xs ih =>
    have hx := hpre x (List.mem_cons_self x xs)
    simp only [List.cons_append, List.takeWhile_cons, hx, if_true]
    rw [ih (fun l hl => hpre l (List.mem_cons_of_mem x hl))]

/-- Decoding a line sequence fails when it reaches an undecodable line,
wherever that line sits, provided the earlier lines decode. -/
theorem decodeLines_append_fail (pre post : List String) (blank : String)
    (hpre : ∀ l ∈ pre, (Json.parse? l).isSome = true)
    (hblank : Json.parse? blank = none) :
    decodeLines (pre ++ blank :: post) = none := by
  induction pre with
  | nil => simp [decodeLines, hblank]
  | cons x xs ih =>
    obtain ⟨j, hj⟩ := Option.isSome_iff_exists.mp (hpre x (List.mem_cons_self x xs))
    simp only [List.cons_append, decodeLines, hj, List.append_eq]
    rw [ih (fun l hl => hpre l (List.mem_cons_of_mem x hl))]
    rfl

/-- The head surviving a dropWhile fails the predicate. -/
theorem dropWhile_head_false {α : Type} (p : α → Bool) (l : List α) (c : α)
    (r : List α) (h : l.dropWhile p = c :: r) : p c = false := by
  induction l with
  | nil => exact absurd h (by simp)
  | cons x xs ih =>
    rw [List.dropWhile_cons] at h
    by_cases hx : p x = true
    · rw [if_pos hx] at h; exact ih h
    · rw [if_neg hx] at h
      injection h with h1 h2
      rw [← h1]
      simpa using hx

/-- A Python-whitespace byte that is not JSON whitespace is VT or FF. -/
theorem pyWs_not_jsonWs (c : Char) (h1 : pyWs c = true) (h2 : jsonWsB c = false) :
    c = '\x0b' ∨ c = '\x0c' := by
  simp only [pyWs, Bool.or_eq_true, beq_iff_eq] at h1
  rcases h1 with ((((rfl | rfl) | rfl) | rfl) | rfl) | rfl <;> simp_all [jsonWsB]

/-- A VT or FF byte starts no JSON value. -/
theorem parseValue_ctrl_none (fuel : Nat) (c : Char) (rest : List Char)
    (h : c = '\x0b' ∨ c = '\x0c') : parseValue (fuel + 1) (c :: rest) = none := by
  rcases h with rfl | rfl <;> simp [parseValue, parseNumber, parseNat, Char.isDigit]

/-- A line that Python strips to empty is not valid JSON: `json.loads` fails
on it. -/
theorem parse?_eq_none_of_pyStrip_empty (s : String) (h : pyStrip s = "") :
    Json.parse? s = none := by
  have hall : ∀ c ∈ s.toList, pyWs c = true := by
    have hmk : ((s.toList.dropWhile pyWs).reverse.dropWhile pyWs).reverse = [] := by
      have h2 := congrArg String.data h
      simpa [pyStrip] using h2
    have hrev : (s.toList.dropWhile pyWs).reverse.dropWhile pyWs = [] := by
      simpa using congrArg List.reverse hmk
    have hdw := List.dropWhile_eq_nil_iff.mp hrev
    have hdrop : ∀ c ∈ s.toList.dropWhile pyWs, pyWs c = true := by
      intro c hc
      exact hdw c (List.mem_reverse.mpr hc)
    intro c hc
    rw [← List.takeWhile_append_dropWhile (p := pyWs) (l := s.toList)] at hc
    rcases List.mem_append.mp hc with h1 | h2
    · exact List.mem_takeWhile_imp h1
    · exact hdrop c h2
  unfold Json.parse?
  cases hw : skipWs s.toList with
  | nil => simp [parseValue]
  | cons c rest =>
    have hcmem : c ∈ s.toList := by
      have : c ∈ skipWs s.toList := by rw [hw]; exact List.mem_cons_self c rest
      exact (List.dropWhile_sublist jsonWsB).subset this
    have hjw : jsonWsB c = false := by
      unfold skipWs at hw
      exact dropWhile_head_false jsonWsB s.toList c rest hw
    rw [parseValue_ctrl_none s.length c rest (pyWs_not_jsonWs c (hall c hcmem) hjw)]

/-- C1 (amended): the kernel_report log stream ends at the first line that is
empty after stripping whitespace and decodes exactly the lines before it —
nothing at or after the blank line is ever decoded; sample_events has no such
sentinel: every received line, the blank one included, is passed to
`json.loads`, so a blank line aborts the stream with a decode error instead
of ending it cleanly (lines after the blank are still never decoded, since
the error ends the generator). -/
theorem C1_blank_line_sentinel :
    (∀ (raw : String) (pre post : List String) (blank : String),
      pySplitNL raw = pre ++ blank :: post →
      pyStrip blank = "" →
      (∀ l ∈ pre, pyStrip l ≠ "") →
      kernelStream raw = decodedOrError (decodeLines pre)) ∧
    (∀ (c : Client) (pyVersion : String) (net : Request → Nat × String)
       (sample_id raw : String) (status : Nat) (pre post : List String)
       (blank : String),
      net (c._new_request pyVersion "GET"
        ("/v0/samples/" ++ sample_id ++ "/events") none) = (status, raw) →
      200 ≤ status ∧ status < 300 →
      iterLines raw = pre ++ blank :: post →
      pyStrip blank = "" →
      (∀ l ∈ pre, (Json.parse? l).isSome = true) →
      c.sample_events pyVersion net sample_id = .error .jsonDecodeError) := by
  constructor
  · intro raw pre post blank hsplit hblank hpre
    unfold kernelStream
    rw [hsplit, takeWhile_append_sentinel _ pre post blank
      (fun l hl => by simpa using hpre l hl) (by simpa using hblank)]
  · intro c pyVersion net sample_id raw status pre post blank hnet h2xx hsplit hblank hpre
    unfold Client.sample_events urlopen
    rw [hnet]
    simp only [h2xx, and_self, if_true, hsplit]
    rw [decodeLines_append_fail pre post blank hpre
      (parse?_eq_none_of_pyStrip_empty blank hblank)]
    rfl

/-- An events stream with a blank line between JSON lines, for C1. -/
def wNetEvents : Request → Nat × String :=
  fun _ => (200, "\x7b\x7d\n\n\x7b\"a\": 1\x7d\n")

/-- Witness for C1: the kernel stream stops cleanly at the blank line, and
sample_events on the same framing fails at the blank line. -/
theorem C1_witness :
    kernelStream "\x7b\x7d\n\n\x7b\"a\": 1\x7d\n" =
      decodedOrError (decodeLines ["\x7b\x7d"]) ∧
    Client.sample_events wClient "3.8.0" wNetEvents "s1" =
      .error .jsonDecodeError :=
  ⟨C1_blank_line_sentinel.1 "\x7b\x7d\n\n\x7b\"a\": 1\x7d\n"
      ["\x7b\x7d"] ["\x7b\"a\": 1\x7d", ""] "" (by decide) (by decide) (by decide),
   C1_blank_line_sentinel.2 wClient "3.8.0" wNetEvents "s1"
      "\x7b\x7d\n\n\x7b\"a\": 1\x7d\n" 200 ["\x7b\x7d\n"] ["\x7b\"a\": 1\x7d\n"] "\n"
      rfl (by decide) (by decide) (by decide) (by decide)⟩

/-- C1 counterexample: sample_events does not end the event sequence cleanly
at the first blank line — the claim predicts the one event before the blank,
but the code feeds the blank line to `json.loads` and the stream fails. -/
theorem C1_counterexample :
    Client.sample_events wClient "3.8.0" wNetEvents "s1" =
      .error .jsonDecodeError ∧
    Client.sample_events wClient "3.8.0" wNetEvents "s1" ≠ .ok [Json.obj []] := by
  constructor
  · rfl
  · intro h
    rw [show Client.sample_events wClient "3.8.0" wNetEvents "s1" =
      .error .jsonDecodeError from rfl] at h
    exact Except.noConfusion h

/-- Characterization of the spec-modelled paginator against the fixture
server: starting at `cursor` with `remaining` items still wanted, it yields
the next `remaining` items in server order and issues one request per page
it fetches. -/
theorem paginateFrom_fixture (items : List Json) (ps : Nat) (hps : 0 < ps) :
    ∀ remaining fuel cursor, remaining ≤ fuel →
      paginateFrom (fixtureServer items ps) fuel cursor remaining =
        ((items.drop cursor).take remaining,
         if remaining = 0 then 0
         else if items.length ≤ cursor then 1
         else (min remaining (items.length - cursor) + ps - 1) / ps) := by
  intro remaining
  induction remaining using Nat.strong_induction_on with
  | _ remaining ih =>
    intro fuel cursor hrf
    cases remaining with
    | zero => simp [paginateFrom]
    | succ r =>
      cases fuel with
      | zero => omega
      | succ f =>
        rw [paginateFrom]
        by_cases hcur : items.length ≤ cursor
        · have hdrop : items.drop cursor = [] := List.drop_eq_nil_of_le hcur
          simp [fixtureServer, hdrop, hcur, Nat.succ_ne_zero]
        · push_neg at hcur
          have hdlen : (items.drop cursor).length = items.length - cursor := by simp
          have hplen : ((items.drop cursor).take ps).length =
              min ps (items.length - cursor) := by simp
          have hpos : 0 < min ps (items.length - cursor) := by
            apply lt_min hps; omega
          have hnonempty : ((items.drop cursor).take ps).isEmpty = false := by
            rw [List.isEmpty_eq_false_iff_exists_mem]
            have : 0 < ((items.drop cursor).take ps).length := by omega
            exact List.exists_mem_of_length_pos this
          simp only [fixtureServer, hnonempty, Bool.false_eq_true, if_false]
          by_cases hfit : r + 1 ≤ ((items.drop cursor).take ps).length
          · rw [if_pos hfit]
            have hr1ps : r + 1 ≤ ps := by omega
            have htt : ((items.drop cursor).take ps).take (r + 1) =
                (items.drop cursor).take (r + 1) := by
              rw [List.take_take]
              congr 1
              omega
            rw [htt]
            have hcount : (min (r + 1) (items.length - cursor) + ps - 1) / ps = 1 := by
              have hmin : min (r + 1) (items.length - cursor) = r + 1 := by
                rw [hplen] at hfit
                omega
              rw [hmin, show r + 1 + ps - 1 = r + ps from by omega]
              rw [show r + ps = r + 1 * ps from by omega]
              rw [Nat.add_mul_div_right r 1 hps]
              have : r / ps = 0 := Nat.div_eq_of_lt (by omega)
              omega
            simp [hcur, hcount]
          · rw [if_neg hfit]
            push_neg at hfit
            rw [hplen] at hfit
            by_cases hnext : cursor + ps < items.length
            · simp only [if_pos hnext]
              have hplps : min ps (items.length - cursor) = ps := by omega
              have hr1ps : ps < r + 1 := by omega
              have hrec := ih (r + 1 - ps) (by omega) f (cursor + ps) (by omega)
              rw [hplen, hplps, hrec]
              simp only [Prod.mk.injEq]
              have hcur2 : ¬(items.length ≤ cursor) := by omega
              constructor
              · conv_rhs => rw [show r + 1 = ps + (r + 1 - ps) from by omega]
                rw [List.take_add, List.drop_drop]
              · have hz : ¬(r + 1 - ps = 0) := by omega
                have hnc : ¬(items.length ≤ cursor + ps) := by omega
                rw [if_neg hz, if_neg hnc, if_neg (Nat.succ_ne_zero r), if_neg hcur2]
                rcases le_total (r + 1) (items.length - cursor) with hle | hle
                · rw [min_eq_left hle, min_eq_left (by omega : r + 1 - ps ≤
                    items.length - (cursor + ps))]
                  rw [show r + 1 - ps + ps - 1 = r from by omega,
                      show r + 1 + ps - 1 = r + 1 * ps from by omega,
                      Nat.add_mul_div_right _ _ hps]
                · rw [min_eq_right hle, min_eq_right (by omega :
                    items.length - (cursor + ps) ≤ r + 1 - ps)]
                  rw [show items.length - (cursor + ps) + ps - 1 =
                        items.length - cursor - 1 from by omega,
                      show items.length - cursor + ps - 1 =
                        (items.length - cursor - 1) + 1 * ps from by omega,
                      Nat.add_mul_div_right _ _ hps]
            · simp only [if_neg hnext]
              push_neg at hnext
              have hpl : min ps (items.length - cursor) = items.length - cursor := by
                omega
              have hitems : (items.drop cursor).take ps = items.drop cursor :=
                List.take_of_length_le (by omega)
              have hitems2 : (items.drop cursor).take (r + 1) = items.drop cursor :=
                List.take_of_length_le (by omega)
              rw [hitems, hitems2]
              have hcount : (min (r + 1) (items.length - cursor) + ps - 1) / ps = 1 := by
                have hmin : min (r + 1) (items.length - cursor) =
                    items.length - cursor := by omega
                rw [hmin]
                have hlc1 : 1 ≤ items.length - cursor := by omega
                rw [show items.length - cursor + ps - 1 =
                  (items.length - cursor - 1) + 1 * ps from by omega]
                rw [Nat.add_mul_div_right _ 1 hps]
                have : (items.length - cursor - 1) / ps = 0 :=
                  Nat.div_eq_of_lt (by omega)
                omega
              simp [hcur, hcount]

/-- C9 (amended): over a fixture listing of N items served in pages of
`ps > 0`, a Paginator capped at `max` yields exactly `min(N, max)` items in
server order; it issues `ceil(min(N, max)/ps)` page requests when that count
is positive, exactly one request when `max > 0` but the listing is empty
(the empty page must be fetched to be observed), and no request when
`max = 0`. -/
theorem C9_paginator_counts (c : Client) (items : List Json) (ps maxItems : Nat)
    (hps : 0 < ps) :
    (Paginator.consume (c.owned_samples maxItems) (fixtureServer items ps)).1 =
      items.take maxItems ∧
    (Paginator.consume (c.owned_samples maxItems) (fixtureServer items ps)).2 =
      (if maxItems = 0 then 0
       else if items.length = 0 then 1
       else (min maxItems items.length + ps - 1) / ps) := by
  have h := paginateFrom_fixture items ps hps maxItems maxItems 0 (le_refl _)
  dsimp only [Paginator.consume, Client.owned_samples] at h ⊢
  rw [h]
  constructor
  · simp
  · rcases Nat.eq_zero_or_pos maxItems with rfl | hmax
    · simp
    · simp only [if_neg (show ¬(maxItems = 0) from by omega), Nat.sub_zero]
      by_cases hz : items.length = 0
      · simp only [if_pos (show items.length ≤ 0 from by omega), if_pos hz]
      · simp only [if_neg (show ¬(items.length ≤ 0) from by omega), if_neg hz]

/-- C9 counterexample: over an empty listing with `max = 1`, the paginator
must fetch the first (empty) page to observe the end, issuing one request
where the claimed `ceil(observed_items / page_size)` formula predicts zero. -/
theorem C9_counterexample :
    (Paginator.consume (Client.owned_samples wClient 1) (fixtureServer [] 20)).2 = 1 ∧
    (Paginator.consume (Client.owned_samples wClient 1) (fixtureServer [] 20)).2 ≠
      (min (List.length ([] : List Json)) 1 + 20 - 1) / 20 := by
  exact ⟨rfl, by decide⟩

/-- Witness for C9: 30 items in pages of 20 with a cap of 25 yield 25 items
in 2 requests. -/
theorem C9_witness :
    (Paginator.consume (Client.owned_samples wClient 25)
      (fixtureServer (List.replicate 30 Json.null) 20)).1 =
      (List.replicate 30 Json.null).take 25 ∧
    (Paginator.consume (Client.owned_samples wClient 25)
      (fixtureServer (List.replicate 30 Json.null) 20)).2 =
      (if (25 : Nat) = 0 then 0
       else if (List.replicate 30 Json.null).length = 0 then 1
       else (min 25 (List.replicate 30 Json.null).length + 20 - 1) / 20) :=
  C9_paginator_counts wClient (List.replicate 30 Json.null) 20 25 (by decide)

/-- toList distributes over string append. -/
theorem toList_append (s t : String) : (s ++ t).toList = s.toList ++ t.toList :=
  String.data_append s t

/-- The Content-Disposition header block the encoder writes for the `_json`
scalar field (no space before `name`, as in the source). -/
def hdrJson : List Char :=
  ("Content-Disposition: form-data;name=\"_json\"").toList

/-- The file field header block up to the filename opening quote. -/
def hdrFilePre : List Char :=
  ("Content-Disposition: form-data; filename=\"").toList

/-- The file field header block from the filename closing quote. -/
def hdrFileSuf : List Char := ("\"; name=\"file\"").toList
/-- Character expansion of one fixed fragment of the multipart format. -/
theorem clDashDash_expand : ("--").toList = ['-', '-'] := rfl

/-- Character expansion of one fixed fragment of the multipart format. -/
theorem clCrlf_expand : ("\r\n").toList = ['\r', '\n'] := rfl

/-- Character expansion of one fixed fragment of the multipart format. -/
theorem clScalarHdr_expand : ("\r\nContent-Disposition: form-data;name=\"").toList = ['\r', '\n', 'C', 'o', 'n', 't', 'e', 'n', 't', '-', 'D', 'i', 's', 'p', 'o', 's', 'i', 't', 'i', 'o', 'n', ':', ' ', 'f', 'o', 'r', 'm', '-', 'd', 'a', 't', 'a', ';', 'n', 'a', 'm', 'e', '=', '\"'] := rfl

/-- Character expansion of one fixed fragment of the multipart format. -/
theorem clQuotDblCrlf_expand : ("\"\r\n\r\n").toList = ['\"', '\r', '\n', '\r', '\n'] := rfl

/-- Character expansion of one fixed fragment of the multipart format. -/
theorem clFileHdr_expand : ("\r\nContent-Disposition: form-data; filename=\"").toList = ['\r', '\n', 'C', 'o', 'n', 't', 'e', 'n', 't', '-', 'D', 'i', 's', 'p', 'o', 's', 'i', 't', 'i', 'o', 'n', ':', ' ', 'f', 'o', 'r', 'm', '-', 'd', 'a', 't', 'a', ';', ' ', 'f', 'i', 'l', 'e', 'n', 'a', 'm', 'e', '=', '\"'] := rfl

/-- Character expansion of one fixed fragment of the multipart format. -/
theorem clNameMid_expand : ("\"; name=\"").toList = ['\"', ';', ' ', 'n', 'a', 'm', 'e', '=', '\"'] := rfl

/-- Character expansion of one fixed fragment of the multipart format. -/
theorem clClose_expand : ("--\r\n").toList = ['-', '-', '\r', '\n'] := rfl

/-- Character expansion of one fixed fragment of the multipart format. -/
theorem clJsonName_expand : ("_json").toList = ['_', 'j', 's', 'o', 'n'] := rfl

/-- Character expansion of one fixed fragment of the multipart format. -/
theorem clFileName_expand : ("file").toList = ['f', 'i', 'l', 'e'] := rfl

/-- Character expansion of one fixed fragment of the multipart format. -/
theorem clCD_expand : ("Content-Disposition: form-data").toList = ['C', 'o', 'n', 't', 'e', 'n', 't', '-', 'D', 'i', 's', 'p', 'o', 's', 'i', 't', 'i', 'o', 'n', ':', ' ', 'f', 'o', 'r', 'm', '-', 'd', 'a', 't', 'a'] := rfl

/-- Character expansion of one fixed fragment of the multipart format. -/
theorem clSemiNameFile_expand : ("; name=\"file\"").toList = [';', ' ', 'n', 'a', 'm', 'e', '=', '\"', 'f', 'i', 'l', 'e', '\"'] := rfl

/-- Character expansion of one fixed fragment of the multipart format. -/
theorem clSpNameFile_expand : (" name=\"file\"").toList = [' ', 'n', 'a', 'm', 'e', '=', '\"', 'f', 'i', 'l', 'e', '\"'] := rfl

/-- Character expansion of one fixed fragment of the multipart format. -/
theorem clName_expand : ("name").toList = ['n', 'a', 'm', 'e'] := rfl

/-- Character expansion of one fixed fragment of the multipart format. -/
theorem clFilename_expand : ("filename").toList = ['f', 'i', 'l', 'e', 'n', 'a', 'm', 'e'] := rfl

/-- Character expansion of one fixed fragment of the multipart format. -/
theorem clSpFilenameEq_expand : (" filename=\"").toList = [' ', 'f', 'i', 'l', 'e', 'n', 'a', 'm', 'e', '=', '\"'] := rfl

/-- Character expansion of one fixed fragment of the multipart format. -/
theorem clHdrJson_expand : ("Content-Disposition: form-data;name=\"_json\"").toList = ['C', 'o', 'n', 't', 'e', 'n', 't', '-', 'D', 'i', 's', 'p', 'o', 's', 'i', 't', 'i', 'o', 'n', ':', ' ', 'f', 'o', 'r', 'm', '-', 'd', 'a', 't', 'a', ';', 'n', 'a', 'm', 'e', '=', '\"', '_', 'j', 's', 'o', 'n', '\"'] := rfl

/-- Character expansion of one fixed fragment of the multipart format. -/
theorem clBoundaryEq_expand : ("multipart/form-data; boundary=").toList = ['m', 'u', 'l', 't', 'i', 'p', 'a', 'r', 't', '/', 'f', 'o', 'r', 'm', '-', 'd', 'a', 't', 'a', ';', ' ', 'b', 'o', 'u', 'n', 'd', 'a', 'r', 'y', '='] := rfl

/-- Character expansion of the filename header prefix literal. -/
theorem clFilePre_expand : ("Content-Disposition: form-data; filename=\"").toList =
    ['C', 'o', 'n', 't', 'e', 'n', 't', '-', 'D', 'i', 's', 'p', 'o', 's', 'i',
     't', 'i', 'o', 'n', ':', ' ', 'f', 'o', 'r', 'm', '-', 'd', 'a', 't', 'a',
     ';', ' ', 'f', 'i', 'l', 'e', 'n', 'a', 'm', 'e', '=', '\"'] := rfl

/-- Character expansion of the filename header suffix literal. -/
theorem clFileSuf_expand : ("\"; name=\"file\"").toList =
    ['\"', ';', ' ', 'n', 'a', 'm', 'e', '=', '\"', 'f', 'i', 'l', 'e', '\"'] := rfl

/-- splitOnMarker over a right-associated split point. -/
theorem splitOnMarker_append2 (marker content rest : List Char)
    (hm : marker ≠ [])
    (hc : listContains marker ((content ++ marker).dropLast) = false) :
    splitOnMarker marker (content ++ (marker ++ rest)) = some (content, rest) := by
  rw [← List.append_assoc]
  exact splitOnMarker_append marker content rest hm hc

/-- A body region that starts with CR LF does not start with the closing
dashes. -/
theorem dashDash_not_prefix_crlf (X : List Char) :
    dashDash.isPrefixOf (crlfM ++ X) = false := by
  simp [dashDash, crlfM, List.isPrefixOf]

/-- The parts parser accepts the closing delimiter. -/
theorem parseParts_close (bl : List Char) (fuel : Nat) :
    parseParts bl (fuel + 1) (dashDash ++ crlfM) = some [] := by
  rw [parseParts]
  simp [dashDash, crlfM, List.isPrefixOf]

/-- The parameter parser accepts the end of a header whatever fuel is left. -/
theorem parseParams_nil (fuel : Nat) : parseParams fuel [] = some [] := by
  cases fuel <;> rfl

/-- The parameter parser reads the trailing `; name="file"` parameter. -/
theorem parseParams_name_file (fuel : Nat) :
    parseParams (fuel + 1) (("; name=\"file\"").toList) =
      some [(("name").toList, ("file").toList)] := by
  rw [show (("; name=\"file\"").toList) = ';' :: ((" name=\"file\"").toList) from rfl]
  rw [parseParams]
  rw [show splitOnMarker ['='] (trimLeadingWs ((" name=\"file\"").toList)) =
      some ((("name")).toList, '\"' :: (("file\"").toList)) from by decide]
  simp only []
  rw [show splitOnMarker ['\"'] ((("file\"")).toList) =
      some ((("file")).toList, ([] : List Char)) from by decide]
  simp only [parseParams_nil]
  rfl

/-- The scalar `_json` header block parses to the field name alone. -/
theorem parseContentDisposition_json :
    parseContentDisposition hdrJson = some ("_json", none) := by decide

/-- The parameter parser reads `; filename="<fn>"; name="file"` whenever the
filename contains no quote. -/
theorem parseParams_file_hdr (fn : List Char) (hq : ∀ c ∈ fn, c ≠ '\"') (fuel : Nat) :
    parseParams (fuel + 1 + 1) (';' :: ((" filename=\"").toList ++ (fn ++ hdrFileSuf))) =
      some [(("filename").toList, fn), (("name").toList, ("file").toList)] := by
  rw [parseParams]
  have ht : trimLeadingWs ((" filename=\"").toList ++ (fn ++ hdrFileSuf)) =
      ("filename").toList ++ (['='] ++ ('\"' :: (fn ++ hdrFileSuf))) := by
    simp [clSpFilenameEq_expand, clFilename_expand, trimLeadingWs, List.cons_append]
  rw [ht]
  rw [splitOnMarker_append2 ['='] (("filename").toList) ('\"' :: (fn ++ hdrFileSuf))
    (by simp) (by decide)]
  simp only []
  have h2 : fn ++ hdrFileSuf = fn ++ (['\"'] ++ (("; name=\"file\"").toList)) := by
    simp [hdrFileSuf, clFileSuf_expand, clSemiNameFile_expand, List.cons_append]
  rw [h2]
  rw [splitOnMarker_append2 ['\"'] fn (("; name=\"file\"").toList) (by simp)
    (by simpa using listContains_head_miss '\"' [] fn hq)]
  simp only [parseParams_name_file]
  rfl

/-- The file field header block parses to the field name `file` and the
embedded filename, whenever the filename contains no quote. -/
theorem parseContentDisposition_file (fn : List Char) (hq : ∀ c ∈ fn, c ≠ '\"') :
    parseContentDisposition (hdrFilePre ++ (fn ++ hdrFileSuf)) =
      some ("file", some (String.mk fn)) := by
  have hshape : hdrFilePre ++ (fn ++ hdrFileSuf) =
      ("Content-Disposition: form-data").toList ++
        (';' :: ((" filename=\"").toList ++ (fn ++ hdrFileSuf))) := by
    simp [hdrFilePre, clFilePre_expand, clCD_expand, clSpFilenameEq_expand,
      List.cons_append]
  unfold parseContentDisposition
  rw [hshape, stripPref_append]
  simp only [List.length_cons]
  rw [show ((" filename=\"").toList ++ (fn ++ hdrFileSuf)).length + 1 + 1 =
      ((" filename=\"").toList ++ (fn ++ hdrFileSuf)).length + 1 + 1 from rfl]
  rw [parseParams_file_hdr fn hq]
  simp only [List.find?]
  rw [show ((("filename")).toList == (("name")).toList) = false from by decide]
  rw [show ((("name")).toList == (("name")).toList) = true from by decide]
  rw [show ((("filename")).toList == (("filename")).toList) = true from by decide]
  rfl

/-- Reading one part: a CR LF, the header block, the blank line, the content
up to the next delimiter; the parser then continues after the delimiter. -/
theorem parseParts_step (bl hdr content rest : List Char) (fuel : Nat)
    (nf : String × Option String)
    (Hhdr : listContains dblCrlf ((hdr ++ dblCrlf).dropLast) = false)
    (Hcontent : listContains (crlfM ++ dashDash ++ bl)
      ((content ++ (crlfM ++ dashDash ++ bl)).dropLast) = false)
    (Hparse : parseContentDisposition hdr = some nf) :
    parseParts bl (fuel + 1)
      (crlfM ++ (hdr ++ (dblCrlf ++ (content ++ ((crlfM ++ dashDash ++ bl) ++ rest))))) =
      (parseParts bl fuel rest).map
        (fun parts => ⟨nf.1, nf.2, String.mk content⟩ :: parts) := by
  have e1 := splitOnMarker_append2 dblCrlf hdr
    (content ++ ((crlfM ++ dashDash ++ bl) ++ rest)) (by simp [dblCrlf]) Hhdr
  have e2 := splitOnMarker_append2 (crlfM ++ dashDash ++ bl) content rest
    (by simp [crlfM]) Hcontent
  rw [parseParts, dashDash_not_prefix_crlf]
  simp only [Bool.false_eq_true, if_false, stripPref_append]
  rw [e1]
  simp only []
  rw [e2]
  simp only [Hparse]
  cases hrec : parseParts bl fuel rest
  · rfl
  · rfl

/-- parseParts_step for any positive fuel. -/
theorem parseParts_step_any (bl hdr content rest : List Char) (fuel : Nat)
    (hfuel : 1 ≤ fuel) (nf : String × Option String)
    (Hhdr : listContains dblCrlf ((hdr ++ dblCrlf).dropLast) = false)
    (Hcontent : listContains (crlfM ++ dashDash ++ bl)
      ((content ++ (crlfM ++ dashDash ++ bl)).dropLast) = false)
    (Hparse : parseContentDisposition hdr = some nf) :
    parseParts bl fuel
      (crlfM ++ (hdr ++ (dblCrlf ++ (content ++ ((crlfM ++ dashDash ++ bl) ++ rest))))) =
      (parseParts bl (fuel - 1) rest).map
        (fun parts => ⟨nf.1, nf.2, String.mk content⟩ :: parts) := by
  cases fuel with
  | zero => omega
  | succ f => simpa using parseParts_step bl hdr content rest f nf Hhdr Hcontent Hparse

/-- parseParts_close for any positive fuel. -/
theorem parseParts_close_any (bl : List Char) (fuel : Nat) (hfuel : 1 ≤ fuel) :
    parseParts bl fuel (dashDash ++ crlfM) = some [] := by
  cases fuel with
  | zero => omega
  | succ f => exact parseParts_close bl f

/-- Round-trip of the two-field submission encoding through the standard
multipart parser: the parsed parts carry back the original field names, the
scalar value, the file contents and the filename. The first two hypotheses
are the boundary-collision caveat the encoder documents: the delimiter
`CR LF -- <boundary>` must not occur inside either field value (the random
32-hex-character boundary ensures this in practice); the filename must
contain no CR and no quote. -/
theorem multipart_roundtrip_parts (b v fn data : String)
    (Hv : listContains (crlfM ++ dashDash ++ b.toList)
      ((v.toList ++ (crlfM ++ dashDash ++ b.toList)).dropLast) = false)
    (Hdata : listContains (crlfM ++ dashDash ++ b.toList)
      ((data.toList ++ (crlfM ++ dashDash ++ b.toList)).dropLast) = false)
    (HfnCR : ∀ c ∈ fn.toList, c ≠ '\r') (HfnQ : ∀ c ∈ fn.toList, c ≠ '\"') :
    parse_multipart
      (encode_multipart_formdata b [("_json", .scalar v), ("file", .file fn data)]).2
      (encode_multipart_formdata b [("_json", .scalar v), ("file", .file fn data)]).1 =
      some [⟨"_json", none, v⟩, ⟨"file", some fn, data⟩] := by
  have hct : (encode_multipart_formdata b
      [("_json", .scalar v), ("file", .file fn data)]).2.toList =
      ("multipart/form-data; boundary=").toList ++ b.toList := by
    simp [encode_multipart_formdata, toList_append]
  have hbody : (encode_multipart_formdata b
      [("_json", .scalar v), ("file", .file fn data)]).1.toList =
      (dashDash ++ b.toList) ++
        (crlfM ++ (hdrJson ++ (dblCrlf ++ (v.toList ++
          ((crlfM ++ dashDash ++ b.toList) ++
            (crlfM ++ ((hdrFilePre ++ (fn.toList ++ hdrFileSuf)) ++
              (dblCrlf ++ (data.toList ++
                ((crlfM ++ dashDash ++ b.toList) ++
                  (dashDash ++ crlfM))))))))))) := by
    simp [encode_multipart_formdata, encodeField, toList_append, List.cons_append,
      List.append_assoc, dashDash, crlfM, dblCrlf, hdrJson, hdrFilePre, hdrFileSuf,
      clDashDash_expand, clCrlf_expand, clScalarHdr_expand, clQuotDblCrlf_expand,
      clFileHdr_expand, clNameMid_expand, clClose_expand, clJsonName_expand,
      clFileName_expand, clHdrJson_expand, clFilePre_expand, clFileSuf_expand]
  have hpreR : ∀ c ∈ hdrFilePre, c ≠ '\r' := by decide
  have hsufR : ∀ c ∈ hdrFileSuf, c ≠ '\r' := by decide
  have hhdr2mem : ∀ c ∈ hdrFilePre ++ (fn.toList ++ hdrFileSuf), c ≠ '\r' := by
    intro c hc
    rcases List.mem_append.mp hc with h | h
    · exact hpreR c h
    · rcases List.mem_append.mp h with h2 | h2
      · exact HfnCR c h2
      · exact hsufR c h2
  have Hhdr2 : listContains dblCrlf
      (((hdrFilePre ++ (fn.toList ++ hdrFileSuf)) ++ dblCrlf).dropLast) = false := by
    have := listContains_head_miss '\r' ['\n', '\r', '\n']
      (hdrFilePre ++ (fn.toList ++ hdrFileSuf)) hhdr2mem
    simpa only [dblCrlf] using this
  have Hparse2 := parseContentDisposition_file fn.toList HfnQ
  unfold parse_multipart
  rw [hct, stripPref_append]
  simp only []
  rw [hbody, stripPref_append]
  simp only []
  rw [parseParts_step_any b.toList hdrJson v.toList _ _ (by omega) ("_json", none)
    (by decide) Hv parseContentDisposition_json]
  rw [parseParts_step_any b.toList (hdrFilePre ++ (fn.toList ++ hdrFileSuf))
    data.toList _ _ (by simp [crlfM]) ("file", some (String.mk fn.toList))
    Hhdr2 Hdata Hparse2]
  rw [parseParts_close_any b.toList _ (by simp [crlfM])]
  rfl

/-- Folding string append is append of the fold from the empty string. -/
theorem strFoldlAppend (xs : List String) : ∀ acc : String,
    xs.foldl (fun a s => a ++ s) acc = acc ++ xs.foldl (fun a s => a ++ s) "" := by
  induction xs with
  | nil => intro acc; simp [String.append_empty]
  | cons x xs ih =>
    intro acc
    simp only [List.foldl_cons]
    rw [ih (acc ++ x), ih ("" ++ x), String.empty_append, String.append_assoc]

/-- String.join distributes over cons. -/
theorem strJoin_cons (x : String) (ys : List String) :
    String.join (x :: ys) = x ++ String.join ys := by
  show (x :: ys).foldl (fun a s => a ++ s) "" = x ++ ys.foldl (fun a s => a ++ s) ""
  simp only [List.foldl_cons]
  rw [strFoldlAppend ys ("" ++ x), String.empty_append]

/-- The encoder loop concatenates the per-field fragments in list order. -/
theorem encode_foldl_join (boundary : String) :
    ∀ (l : List (String × FieldValue)) (acc : String),
      l.foldl (fun a fv => a ++ encodeField boundary fv.1 fv.2) acc =
        acc ++ String.join (l.map (fun fv => encodeField boundary fv.1 fv.2)) := by
  intro l
  induction l with
  | nil => intro acc; simp [String.join, String.append_empty]
  | cons x xs ih =>
    intro acc
    simp only [List.foldl_cons, List.map_cons]
    rw [ih, strJoin_cons, ← String.append_assoc]

/-- C4: encoding a scalar `_json` field and a `(filename, bytes)` file field
and then parsing the body with a standard multipart parser, using the
boundary taken from the returned content-type value, yields back exactly the
original field names, the original values, and the original filename. The
hypotheses are the encoder's documented caveat: the delimiter derived from
the random boundary must not occur in the field values, and the filename
must contain no CR and no quote. -/
theorem C4_multipart_roundtrip (b v fn data : String)
    (Hv : listContains (crlfM ++ dashDash ++ b.toList)
      ((v.toList ++ (crlfM ++ dashDash ++ b.toList)).dropLast) = false)
    (Hdata : listContains (crlfM ++ dashDash ++ b.toList)
      ((data.toList ++ (crlfM ++ dashDash ++ b.toList)).dropLast) = false)
    (HfnCR : ∀ c ∈ fn.toList, c ≠ '\r') (HfnQ : ∀ c ∈ fn.toList, c ≠ '\"') :
    parse_multipart
      (encode_multipart_formdata b [("_json", .scalar v), ("file", .file fn data)]).2
      (encode_multipart_formdata b [("_json", .scalar v), ("file", .file fn data)]).1 =
      some [⟨"_json", none, v⟩, ⟨"file", some fn, data⟩] :=
  multipart_roundtrip_parts b v fn data Hv Hdata HfnCR HfnQ

/-- Witness for C4 at a concrete boundary, metadata value, filename and
binary-ish file contents. -/
theorem C4_witness :
    parse_multipart
      (encode_multipart_formdata "0123456789abcdef0123456789abcdef"
        [("_json", .scalar "\x7b\"kind\": \"file\"\x7d"),
         ("file", .file "a.exe" "MZ\x90data")]).2
      (encode_multipart_formdata "0123456789abcdef0123456789abcdef"
        [("_json", .scalar "\x7b\"kind\": \"file\"\x7d"),
         ("file", .file "a.exe" "MZ\x90data")]).1 =
      some [⟨"_json", none, "\x7b\"kind\": \"file\"\x7d"⟩,
            ⟨"file", some "a.exe", "MZ\x90data"⟩] :=
  C4_multipart_roundtrip "0123456789abcdef0123456789abcdef"
    "\x7b\"kind\": \"file\"\x7d" "a.exe" "MZ\x90data"
    (by decide) (by decide) (by decide) (by decide)

/-- C7: the encoder emits the fields in the input mapping's iteration order —
the body is the concatenation of the per-field fragments in list order, then
the closing delimiter — and the file submission's body in particular parses
to the `_json` metadata part (carrying the serialized kind, interactive and
profiles payload) strictly before the `file` part. -/
theorem C7_field_order (boundary : String) (fstFields : List (String × FieldValue))
    (b filename contents : String) (interactive : Bool) (profiles : List Json)
    (Hv : listContains (crlfM ++ dashDash ++ b.toList)
      (((Json.dumps (submitFilePayload interactive profiles)).toList ++
        (crlfM ++ dashDash ++ b.toList)).dropLast) = false)
    (Hdata : listContains (crlfM ++ dashDash ++ b.toList)
      ((contents.toList ++ (crlfM ++ dashDash ++ b.toList)).dropLast) = false)
    (HfnCR : ∀ c ∈ filename.toList, c ≠ '\r')
    (HfnQ : ∀ c ∈ filename.toList, c ≠ '\"') :
    (encode_multipart_formdata boundary fstFields).1 =
      String.join (fstFields.map (fun fv => encodeField boundary fv.1 fv.2)) ++
        ("--" ++ boundary ++ "--\r\n") ∧
    (parse_multipart
      (encode_multipart_formdata b
        (submitFileFields filename contents interactive profiles)).2
      (encode_multipart_formdata b
        (submitFileFields filename contents interactive profiles)).1).map
        (fun parts => parts.map MPart.name) =
      some ["_json", "file"] := by
  constructor
  · unfold encode_multipart_formdata
    rw [encode_foldl_join boundary fstFields "", String.empty_append]
  · have h := multipart_roundtrip_parts b
      (Json.dumps (submitFilePayload interactive profiles)) filename contents
      Hv Hdata HfnCR HfnQ
    rw [show submitFileFields filename contents interactive profiles =
      [("_json", .scalar (Json.dumps (submitFilePayload interactive profiles))),
       ("file", .file filename contents)] from rfl]
    rw [h]
    rfl

/-- Witness for C7 at a concrete submission. -/
theorem C7_witness :
    (encode_multipart_formdata "bd" [("k", FieldValue.scalar "v")]).1 =
      String.join ([("k", FieldValue.scalar "v")].map
        (fun fv => encodeField "bd" fv.1 fv.2)) ++ ("--" ++ "bd" ++ "--\r\n") ∧
    (parse_multipart
      (encode_multipart_formdata "0123456789abcdef0123456789abcdef"
        (submitFileFields "a.exe" "MZ\x90data" false [])).2
      (encode_multipart_formdata "0123456789abcdef0123456789abcdef"
        (submitFileFields "a.exe" "MZ\x90data" false [])).1).map
        (fun parts => parts.map MPart.name) =
      some ["_json", "file"] :=
  ⟨(C7_field_order "bd" [("k", FieldValue.scalar "v")]
      "0123456789abcdef0123456789abcdef" "a.exe" "MZ\x90data" false []
      (by decide) (by decide) (by decide) (by decide)).1,
   (C7_field_order "bd" [("k", FieldValue.scalar "v")]
      "0123456789abcdef0123456789abcdef" "a.exe" "MZ\x90data" false []
      (by decide) (by decide) (by decide) (by decide)).2⟩
